import Mathlib

/-!
Verification of the Flask / Flask-SQLAlchemy Users-and-Tweets lab.

The repository is a lab notebook (src/index.ipynb): it declares the data
model (the class User with columns id, username and a relationship to
Tweet) and instructs the learner to build read-only JSON routes over the
Users and Tweets tables.  The runnable app.py and seed.py files are not
part of the repository, so the query layer, the route layer and the
seeding routine are modelled from the specification, faithful to its
words; the User model columns are taken from the notebook snippet.

Machine integers of the storage layer are modelled as Nat; nullable
columns are modelled as Option.
-/

namespace TweetLab

/-- Column model of the class User from the notebook snippet:
id = db.Column(db.Integer, primary_key=True),
username = db.Column(db.String(20), nullable=False).
The SQL column is nullable in principle, so it is an Option; the
declared schema forbids the none value. -/
structure User where
  id : Nat
  username : Option String
deriving DecidableEq, Repr

/-- Modelled from the spec: the Tweet entity (the class Tweet is in the
missing app.py): integer id, content string, and a foreign reference
user_id to the owning User (non-null for a well-formed Tweet). -/
structure Tweet where
  id : Nat
  content : Option String
  user_id : Option Nat
deriving DecidableEq, Repr

/-- The persistent storage: the users and tweets tables of app.db. -/
structure DB where
  users : List User
  tweets : List Tweet
deriving DecidableEq, Repr

/-- The empty database, before db.create_all and seeding. -/
def DB.empty : DB := ⟨[], []⟩

/-- Storage-generated integer primary key: one more than the largest id
already present (autoincrement behaviour of the storage engine). -/
def nextId (ids : List Nat) : Nat := ids.foldr max 0 + 1

/-- Modelled from the spec: the seeding routine (seed.py is missing)
inserts a User row with a storage-generated id, via db.session.add and
db.session.commit. -/
def DB.addUser (db : DB) (name : String) : DB :=
  { db with users := db.users ++ [⟨nextId (db.users.map User.id), some name⟩] }

/-- Modelled from the spec: the seeding routine inserts a Tweet row with
a storage-generated id and a foreign reference to its owning User. -/
def DB.addTweet (db : DB) (content : String) (uid : Nat) : DB :=
  { db with
    tweets := db.tweets ++ [⟨nextId (db.tweets.map Tweet.id), some content, some uid⟩] }

/-- Modelled from the spec: the seed scenario of the spec, section 8:
User(id=1, username="ocho"), User(id=2, username="dora"),
Tweet(id=1, content="hi", user_id=1). -/
def seedDB : DB :=
  ((DB.empty.addUser "ocho").addUser "dora").addTweet "hi" 1

/-- Result of a route: a serialized JSON payload or a not-found status. -/
inductive Response (α : Type) where
  | ok : α → Response α
  | notFound : Response α
deriving DecidableEq, Repr

/-- Modelled from the spec: User.query.all() — list all Users. -/
def queryAllUsers (db : DB) : List User := db.users

/-- Modelled from the spec: fetch the single User whose id matches the
id in the URL, or nothing when no row matches. -/
def getUserById (db : DB) (uid : Nat) : Option User :=
  db.users.find? (fun u => u.id == uid)

/-- True when the list needle occurs contiguously at the head of hay. -/
def startsWith : List Char → List Char → Bool
  | [], _ => true
  | _ :: _, [] => false
  | a :: as, b :: bs => a == b && startsWith as bs

/-- True when the list needle occurs contiguously anywhere inside hay,
the semantics of the SQL pattern LIKE with wildcards on both sides. -/
def containsSub (needle : List Char) : List Char → Bool
  | [] => startsWith needle []
  | c :: t => startsWith needle (c :: t) || containsSub needle t

/-- Modelled from the spec: search Users by partial username match —
the rows whose username contains the string in the URL (a null
username matches no pattern, as in SQL). -/
def searchUsers (db : DB) (s : String) : List User :=
  db.users.filter (fun u =>
    match u.username with
    | some n => containsSub s.data n.data
    | none => false)

/-- Modelled from the spec: Tweet.query.all() — list all Tweets. -/
def queryAllTweets (db : DB) : List Tweet := db.tweets

/-- Modelled from the spec: fetch the single Tweet whose id matches the
id in the URL. -/
def getTweetById (db : DB) (tid : Nat) : Option Tweet :=
  db.tweets.find? (fun t => t.id == tid)

/-- The relationship tweets = db.relationship('Tweet', backref='users')
of the notebook snippet: the Tweets whose foreign reference user_id
equals the id of the given User (a null foreign key joins nothing). -/
def userTweets (db : DB) (u : User) : List Tweet :=
  db.tweets.filter (fun t => t.user_id == some u.id)

/-- Modelled from the spec: the query behind /api/users/(int:user_id)/tweets —
look the User up by id, then traverse the relationship.  A missing User
yields none; how none is surfaced (empty list or not-found) is left
undetermined by the spec. -/
def userTweetsById (db : DB) (uid : Nat) : Option (List Tweet) :=
  (getUserById db uid).map (userTweets db)

/-- Modelled from the spec: the query behind /api/users/(user_name)/tweets —
look the User up by username, then traverse the relationship. -/
def userTweetsByName (db : DB) (name : String) : Option (List Tweet) :=
  (db.users.find? (fun u => u.username == some name)).map (userTweets db)

/-- Modelled from the spec: the query behind /api/tweets/(int:tweet_id)/user —
fetch the Tweet, then the backref join to the owning User. -/
def tweetUserById (db : DB) (tid : Nat) : Option User :=
  (getTweetById db tid).bind (fun t =>
    match t.user_id with
    | some uid => db.users.find? (fun u => u.id == uid)
    | none => none)

/-- Modelled from the spec: the route layer for /api/users/(int:id) —
serializes the query result, returning a not-found status when the
query layer signals no match. -/
def userShowRoute (db : DB) (uid : Nat) : Response User × DB :=
  (match getUserById db uid with
   | some u => Response.ok u
   | none => Response.notFound, db)

/-- Modelled from the spec: the route layer for /api/users. -/
def usersIndexRoute (db : DB) : Response (List User) × DB :=
  (Response.ok (queryAllUsers db), db)

/-- Modelled from the spec: the route layer for the username search. -/
def userSearchRoute (db : DB) (s : String) : Response (List User) × DB :=
  (Response.ok (searchUsers db s), db)

/-- Modelled from the spec: the route layer for /api/tweets. -/
def tweetsIndexRoute (db : DB) : Response (List Tweet) × DB :=
  (Response.ok (queryAllTweets db), db)

/-- Modelled from the spec: the route layer for /api/tweets/(int:id). -/
def tweetShowRoute (db : DB) (tid : Nat) : Response Tweet × DB :=
  (match getTweetById db tid with
   | some t => Response.ok t
   | none => Response.notFound, db)

/-- Modelled from the spec: the route layer for /api/users/(int:user_id)/tweets. -/
def userTweetsRoute (db : DB) (uid : Nat) : Response (List Tweet) × DB :=
  (match userTweetsById db uid with
   | some ts => Response.ok ts
   | none => Response.notFound, db)

/-- Modelled from the spec: the route layer for /api/users/(user_name)/tweets. -/
def userTweetsByNameRoute (db : DB) (name : String) : Response (List Tweet) × DB :=
  (match userTweetsByName db name with
   | some ts => Response.ok ts
   | none => Response.notFound, db)

/-- Modelled from the spec: the route layer for /api/tweets/(int:tweet_id)/user. -/
def tweetUserRoute (db : DB) (tid : Nat) : Response User × DB :=
  (match tweetUserById db tid with
   | some u => Response.ok u
   | none => Response.notFound, db)

/-- The specified operations of the query/route surface. -/
inductive Op where
  | usersIndex
  | userShow (uid : Nat)
  | userSearch (s : String)
  | tweetsIndex
  | tweetShow (tid : Nat)
  | userTweetsOp (uid : Nat)
  | userTweetsByNameOp (name : String)
  | tweetUserOp (tid : Nat)

/-- The database state after running one route operation. -/
def runOp (db : DB) : Op → DB
  | Op.usersIndex => (usersIndexRoute db).2
  | Op.userShow uid => (userShowRoute db uid).2
  | Op.userSearch s => (userSearchRoute db s).2
  | Op.tweetsIndex => (tweetsIndexRoute db).2
  | Op.tweetShow tid => (tweetShowRoute db tid).2
  | Op.userTweetsOp uid => (userTweetsRoute db uid).2
  | Op.userTweetsByNameOp name => (userTweetsByNameRoute db name).2
  | Op.tweetUserOp tid => (tweetUserRoute db tid).2

/-- Modelled from the spec: reachable storage states — records are
created once at seed time; afterwards only the specified read
operations run. -/
inductive Reachable : DB → Prop where
  | seeded : Reachable seedDB
  | step {db : DB} (op : Op) : Reachable db → Reachable (runOp db op)

/-- Every foreign reference of a Tweet is non-null and names the id of
a User present in the users table. -/
def fkIntegrity (db : DB) : Bool :=
  db.tweets.all (fun t =>
    match t.user_id with
    | some uid => db.users.any (fun u => u.id == uid)
    | none => false)

/-- Every persisted username is non-null and at most 20 characters, as
declared by db.String(20), nullable=False. -/
def usernamesValid (db : DB) : Bool :=
  db.users.all (fun u =>
    match u.username with
    | some n => n.length ≤ 20
    | none => false)

/-- Match outcome for a request path /api/users/(segment)/tweets. -/
inductive TweetsRouteMatch where
  | byId (uid : Nat)
  | byName (name : String)
deriving DecidableEq, Repr

/-- The Werkzeug int converter: the route /api/users/(int:user_id)/tweets
matches exactly the non-empty all-digit segments. -/
def intConverterMatches (seg : String) : Bool :=
  !seg.isEmpty && seg.data.all (fun c => c.isDigit)

/-- Modelled from the spec: dispatch of /api/users/(segment)/tweets
between the two overlapping routes — the int-converter route takes the
digit-only segments, everything else falls to the by-name route. -/
def dispatchUserTweets (seg : String) : TweetsRouteMatch :=
  if intConverterMatches seg then TweetsRouteMatch.byId seg.toNat!
  else TweetsRouteMatch.byName seg

/-- True exactly on a by-name match outcome. -/
def isByName : TweetsRouteMatch → Bool
  | TweetsRouteMatch.byName _ => true
  | TweetsRouteMatch.byId _ => false

/- ------------------------------------------------------------------ -/
/- Helper lemmas                                                       -/
/- ------------------------------------------------------------------ -/

/-- find? by a key is exact on a list with pairwise distinct keys. -/
theorem find?_key_unique {α : Type} (key : α → Nat) :
    ∀ {l : List α} {a : α} {k : Nat},
      (l.map key).Nodup → a ∈ l → key a = k →
      l.find? (fun x => key x == k) = some a := by
  intro l
  induction l with
  | nil => intro a k _ ha _; cases ha
  | cons b t ih =>
    intro a k hn ha hk
    rw [List.map_cons, List.nodup_cons] at hn
    rcases List.mem_cons.mp ha with h | h
    · subst h
      rw [List.find?_cons_of_pos]
      simp [hk]
    · have hne : key b ≠ k := by
        intro he
        exact hn.1 (by rw [he, ← hk]; exact List.mem_map_of_mem key h)
      rw [List.find?_cons_of_neg]
      · exact ih hn.2 h hk
      · simp [hne]

/-- startsWith detects exactly the lists extending the needle. -/
theorem startsWith_iff :
    ∀ (n h : List Char), startsWith n h = true ↔ ∃ post, h = n ++ post := by
  intro n
  induction n with
  | nil => intro h; simp [startsWith]
  | cons a as ih =>
    intro h
    cases h with
    | nil => simp [startsWith]
    | cons b bs =>
      simp only [startsWith, Bool.and_eq_true, beq_iff_eq, ih bs, List.cons_append,
        List.cons.injEq]
      constructor
      · rintro ⟨rfl, post, rfl⟩
        exact ⟨post, rfl, rfl⟩
      · rintro ⟨post, rfl, rfl⟩
        exact ⟨rfl, post, rfl⟩

/-- containsSub detects exactly contiguous containment. -/
theorem containsSub_iff (n : List Char) :
    ∀ h : List Char, containsSub n h = true ↔ ∃ pre post, h = pre ++ (n ++ post) := by
  intro h
  induction h with
  | nil =>
    simp only [containsSub, startsWith_iff]
    constructor
    · rintro ⟨post, hp⟩
      exact ⟨[], post, hp⟩
    · rintro ⟨pre, post, hp⟩
      rcases List.append_eq_nil.mp hp.symm with ⟨rfl, h2⟩
      exact ⟨post, h2.symm⟩
  | cons c t iht =>
    simp only [containsSub, Bool.or_eq_true, startsWith_iff, iht]
    constructor
    · rintro (⟨post, hp⟩ | ⟨pre, post, hp⟩)
      · exact ⟨[], post, by simpa using hp⟩
      · exact ⟨c :: pre, post, by simp [hp]⟩
    · rintro ⟨pre, post, hp⟩
      cases pre with
      | nil => exact Or.inl ⟨post, by simpa using hp⟩
      | cons d pre =>
        rw [List.cons_append, List.cons.injEq] at hp
        exact Or.inr ⟨pre, post, hp.2⟩

/- ------------------------------------------------------------------ -/
/- Claim theorems                                                      -/
/- ------------------------------------------------------------------ -/

/-- C1: for every User present in the database (User ids being pairwise
distinct, as the primary key guarantees), the tweets-for-User-by-id
operation returns a sequence whose count equals the number of Tweets
whose foreign user reference equals the id of that User; when the User
owns no Tweets the count is zero, i.e. the sequence is empty. -/
theorem userTweetsById_count (db : DB) (u : User)
    (hn : (db.users.map User.id).Nodup) (hu : u ∈ db.users) :
    (userTweetsById db u.id).map List.length =
      some (db.tweets.countP (fun t => t.user_id == some u.id)) := by
  unfold userTweetsById getUserById
  rw [find?_key_unique User.id hn hu rfl]
  unfold userTweets
  rw [Option.map_some', List.countP_eq_length_filter]
  rfl

theorem userTweetsById_count_witness :
    (userTweetsById seedDB 1).map List.length =
      some (seedDB.tweets.countP (fun t => t.user_id == some 1)) :=
  userTweetsById_count seedDB ⟨1, some "ocho"⟩ (by decide) (by decide)

/-- C2: for every Tweet present in the database (with pairwise distinct
Tweet ids and User ids), the owning-User-of-a-Tweet operation returns
exactly the User whose id equals the foreign user reference of that
Tweet. -/
theorem tweetUserById_correct (db : DB) (t : Tweet) (u : User)
    (hnT : (db.tweets.map Tweet.id).Nodup)
    (hnU : (db.users.map User.id).Nodup)
    (ht : t ∈ db.tweets) (hu : u ∈ db.users)
    (hfk : t.user_id = some u.id) :
    tweetUserById db t.id = some u := by
  unfold tweetUserById getTweetById
  rw [find?_key_unique Tweet.id hnT ht rfl, Option.some_bind, hfk]
  exact find?_key_unique User.id hnU hu rfl

theorem tweetUserById_correct_witness :
    tweetUserById seedDB 1 = some ⟨1, some "ocho"⟩ :=
  tweetUserById_correct seedDB ⟨1, some "hi", some 1⟩ ⟨1, some "ocho"⟩
    (by decide) (by decide) (by decide) (by decide) (by decide)

/-- C3: for every User id that exists in the database (User ids being
pairwise distinct), fetch-single-User-by-id returns exactly the User
record bearing that id, its username included. -/
theorem getUserById_self (db : DB) (u : User)
    (hn : (db.users.map User.id).Nodup) (hu : u ∈ db.users) :
    getUserById db u.id = some u ∧
      (getUserById db u.id).map User.username = some u.username := by
  have h : getUserById db u.id = some u := find?_key_unique User.id hn hu rfl
  exact ⟨h, by rw [h, Option.map_some']⟩

theorem getUserById_self_witness :
    getUserById seedDB 2 = some ⟨2, some "dora"⟩ ∧
      (getUserById seedDB 2).map User.username = some (some "dora") :=
  getUserById_self seedDB ⟨2, some "dora"⟩ (by decide) (by decide)

/-- C4: for every User id with no matching row, fetch-single-User-by-id
signals no match, and the route layer turns the no-match signal of the
query layer into a not-found response. -/
theorem getUserById_notFound (db : DB) (i : Nat)
    (h : ∀ u ∈ db.users, u.id ≠ i) :
    getUserById db i = none ∧ (userShowRoute db i).1 = Response.notFound ∧
      ∀ j, getUserById db j = none → (userShowRoute db j).1 = Response.notFound := by
  have hq : getUserById db i = none := by
    unfold getUserById
    apply List.find?_eq_none.mpr
    intro u hu
    simp [h u hu]
  refine ⟨hq, ?_, ?_⟩
  · unfold userShowRoute
    rw [hq]
  · intro j hj
    unfold userShowRoute
    rw [hj]

theorem getUserById_notFound_witness :
    getUserById seedDB 5 = none ∧ (userShowRoute seedDB 5).1 = Response.notFound :=
  ⟨(getUserById_notFound seedDB 5 (by decide)).1,
   (getUserById_notFound seedDB 5 (by decide)).2.1⟩

/-- C5: the username-substring-search operation returns exactly the
Users whose (non-null) username contains the search string as a
contiguous substring, and no other User. -/
theorem searchUsers_exact (db : DB) (s : String) (u : User) :
    u ∈ searchUsers db s ↔
      u ∈ db.users ∧
        ∃ n pre post, u.username = some n ∧ n.data = pre ++ (s.data ++ post) := by
  unfold searchUsers
  rw [List.mem_filter]
  apply and_congr_right
  intro _
  cases hm : u.username with
  | none => simp [hm]
  | some n => simp [hm, containsSub_iff]

/-- C6: in every reachable database state, every Tweet has a non-null
foreign user reference naming the id of a User present in the users
table; the invariant holds after seeding and is preserved by every
query operation.  fkIntegrity is the executable form of the invariant;
its meaning is spelled out in the second conjunct. -/
theorem reachable_fkIntegrity (db : DB) (h : Reachable db) :
    fkIntegrity db = true ∧
      ∀ t ∈ db.tweets, ∃ uid, t.user_id = some uid ∧ ∃ u ∈ db.users, u.id = uid := by
  have hb : fkIntegrity db = true := by
    induction h with
    | seeded => decide
    | step op _ ih => cases op <;> exact ih
  refine ⟨hb, ?_⟩
  unfold fkIntegrity at hb
  rw [List.all_eq_true] at hb
  intro t ht
  have := hb t ht
  cases hm : t.user_id with
  | none => rw [hm] at this; cases this
  | some uid =>
    rw [hm] at this
    rcases List.any_eq_true.mp this with ⟨u, hu, he⟩
    exact ⟨uid, rfl, u, hu, by simpa using he⟩

theorem reachable_fkIntegrity_witness : fkIntegrity seedDB = true :=
  (reachable_fkIntegrity seedDB Reachable.seeded).1

/-- C8: every specified route operation leaves the users and tweets
tables unchanged: the database state after each operation equals the
state before it. -/
theorem runOp_frame (db : DB) (op : Op) : runOp db op = db := by
  cases op <;> rfl

/-- C9: in every reachable database state, every persisted User has a
non-null username of at most 20 characters, as declared by
db.String(20) with nullable=False.  usernamesValid is the executable
form; its meaning is spelled out in the second conjunct. -/
theorem reachable_usernamesValid (db : DB) (h : Reachable db) :
    usernamesValid db = true ∧
      ∀ u ∈ db.users, ∃ n, u.username = some n ∧ n.length ≤ 20 := by
  have hb : usernamesValid db = true := by
    induction h with
    | seeded => decide
    | step op _ ih => cases op <;> exact ih
  refine ⟨hb, ?_⟩
  unfold usernamesValid at hb
  rw [List.all_eq_true] at hb
  intro u hu
  have := hb u hu
  cases hm : u.username with
  | none => rw [hm] at this; cases this
  | some n =>
    rw [hm] at this
    exact ⟨n, rfl, by simpa using this⟩

theorem reachable_usernamesValid_witness : usernamesValid seedDB = true :=
  (reachable_usernamesValid seedDB Reachable.seeded).1

/-- C10: every request segment of /api/users/(segment)/tweets that the
int converter accepts (non-empty, all digits) is dispatched to the
by-user-id route and never to the by-username route, so a User whose
username consists only of digits is unreachable through the by-name
tweets route. -/
theorem dispatchUserTweets_int (seg : String)
    (h : intConverterMatches seg = true) :
    dispatchUserTweets seg = TweetsRouteMatch.byId seg.toNat! ∧
      isByName (dispatchUserTweets seg) = false := by
  unfold dispatchUserTweets
  rw [if_pos h]
  exact ⟨rfl, rfl⟩

theorem dispatchUserTweets_int_witness :
    dispatchUserTweets "123" = TweetsRouteMatch.byId ("123").toNat! ∧
      isByName (dispatchUserTweets "123") = false :=
  dispatchUserTweets_int "123" (by decide)

end TweetLab
